import Mathlib

/-! Verification of `barkhayot/request`.

A shallow embedding of `pkg/request/request.go`, `pkg/request/proxy.go` and
`pkg/throttler/throttler.go`.

Modelling conventions.

* Go `[]byte` is `List UInt8`; a nil slice, a nil map and a nil interface are `none`.
* The collaborators that live outside the package (the JSON codec, `net/url`, `net/http`,
  the Brotli reader, the throttle implementation) are fields of `Env` or of `Throttler`:
  every theorem quantifies over all of them.
* The mutable state of the throttle is passed explicitly (`τ`).
* Every call that the executor makes to a collaborator is appended to a trace of `Event`s, in
  program order, so that "before", "never reached" and "no send" are statements on the trace.
-/

namespace GoRequest

/-! ## Data model -/

/-- Go byte slices. -/
abbrev Bytes := List UInt8

/-- The bytes of a Go string constant. -/
def utf8 (s : String) : Bytes := s.toUTF8.data.toList

/-- An error value created outside the package (codec, URL parser, throttle, transport, reader). -/
structure ExtError where
  msg : String
deriving DecidableEq, Repr

/-- The sentinel `context.Canceled`. -/
def contextCanceled : ExtError := ⟨"context canceled"⟩

/-- The error values the package returns. `ext e` is the collaborator's own error value handed
back unchanged (`return nil, err`); every other constructor is an error built by the package. -/
inductive Error where
  /-- The value `errors.New("cannot set both Body and BodyMarshalled")`. -/
  | conflictingBody
  /-- The value `fmt.Errorf("invalid method: %s", cfg.Method)`. -/
  | invalidMethod (method : String)
  /-- The value `fmt.Errorf("proxy string is empty")`. -/
  | proxyEmpty
  /-- The value `fmt.Errorf("invalid proxy URL: %w", err)`. -/
  | invalidProxyURL (cause : ExtError)
  /-- The value `fmt.Errorf("http %d: %s", resp.StatusCode, string(b))`. -/
  | httpStatus (code : Int) (body : Bytes)
  /-- An error of a collaborator, returned as is. -/
  | ext (e : ExtError)
deriving DecidableEq, Repr

/-- The text of an error (Go `err.Error()`), as bytes. -/
def Error.text : Error → Bytes
  | .conflictingBody => utf8 "cannot set both Body and BodyMarshalled"
  | .invalidMethod m => utf8 "invalid method: " ++ utf8 m
  | .proxyEmpty => utf8 "proxy string is empty"
  | .invalidProxyURL cause => utf8 "invalid proxy URL: " ++ utf8 cause.msg
  | .httpStatus code body => utf8 "http " ++ utf8 (toString code) ++ utf8 ": " ++ body
  | .ext e => utf8 e.msg

/-- Go `map[string][]string` (`http.Header`, `url.Values`) as an association list. Ranging over
the map visits the entries in list order; theorems hold for every list, hence for every
iteration order. -/
abbrev Header := List (String × List String)

/-- The map read `h[key]`: the values stored under `key`, the nil slice when absent. -/
def Header.values : Header → String → List String
  | [], _ => []
  | (k, vs) :: rest, key => if k = key then vs else Header.values rest key

/-- The map write `h[key] = vs`. -/
def Header.store : Header → String → List String → Header
  | [], key, vs => [(key, vs)]
  | (k, old) :: rest, key, vs =>
    if k = key then (key, vs) :: rest else (k, old) :: Header.store rest key vs

/-- Go `Header.Get`: the first value under the canonical form of `key`, or `""`. -/
def Header.Get (canon : String → String) (h : Header) (key : String) : String :=
  match Header.values h (canon key) with
  | [] => ""
  | v :: _ => v

/-- Go `Header.Values`: all values under the canonical form of `key`. -/
def Header.Values (canon : String → String) (h : Header) (key : String) : List String :=
  Header.values h (canon key)

/-- Go `Header.Set`: `h[canon key] = []string{value}`. -/
def Header.Set (canon : String → String) (h : Header) (key value : String) : Header :=
  Header.store h (canon key) [value]

/-- Go `Header.Add`: `h[canon key] = append(h[canon key], value)`. -/
def Header.Add (canon : String → String) (h : Header) (key value : String) : Header :=
  Header.store h (canon key) (Header.values h (canon key) ++ [value])

/-- Go `context.Context`, reduced to what `ctx.Err()` reports. -/
structure Context where
  err : Option ExtError
deriving DecidableEq, Repr

/-- Go `*url.URL`. -/
structure URL where
  Scheme : String
  Host : String
  Path : String
  RawQuery : String
deriving DecidableEq, Repr

/-- An `io.Reader` over a finite body: what `io.ReadAll` returns for it. -/
structure Reader where
  data : Bytes
  err : Option ExtError
deriving DecidableEq, Repr

/-- Go `io.ReadAll`. -/
def ReadAll (r : Reader) : Bytes × Option ExtError := (r.data, r.err)

/-- Go `*http.Request` as built by the executor. -/
structure HttpRequest where
  ctx : Context
  Method : String
  URL : String
  Header : Header
  Body : Option Bytes
deriving DecidableEq, Repr

/-- Go `*http.Client`: the timeout and the forward proxy of its transport (`none`: the default
transport). -/
structure Client where
  Timeout : Int
  Transport : Option URL
deriving DecidableEq, Repr

/-- Go `*http.Response`. -/
structure Response where
  StatusCode : Int
  Header : Header
  Body : Reader
deriving DecidableEq, Repr

/-- The interface `throttler.Throttler`: `Wait` reads and updates the throttle state `τ`. -/
structure Throttler (τ : Type) where
  Wait : Context → τ → Option ExtError × τ

/-- The type `RateThrottler` of `throttler.go`: its `Wait` returns what the `Wait` of the
limiter it wraps returns. The limiter (`golang.org/x/time/rate`) is a parameter. -/
def RateThrottler {τ : Type} (limiterWait : Context → τ → Option ExtError × τ) : Throttler τ :=
  { Wait := fun ctx st => limiterWait ctx st }

/-- The collaborators outside the package. `β` is the type of request bodies (`any`), `T` the
result type of `Request[T]`. -/
structure Env (β T : Type) where
  /-- Go `json.Marshal`. -/
  Marshal : β → Except ExtError Bytes
  /-- Go `url.Parse`. -/
  Parse : String → Except ExtError URL
  /-- Go `url.Values.Encode`. -/
  Encode : Header → String
  /-- Go `(*url.URL).String`. -/
  URLString : URL → String
  /-- The failure of `http.NewRequestWithContext`, if any. -/
  newRequestErr : Context → String → String → Option ExtError
  /-- Go `(*http.Client).Do`: the response, or the error of the transport. -/
  Do : Client → HttpRequest → Except ExtError Response
  /-- Go `textproto.CanonicalMIMEHeaderKey`. -/
  canon : String → String
  /-- Go `brotli.NewReader`. -/
  brotli : Reader → Reader
  /-- The zero value of `T` (`var out T`). -/
  zero : T
  /-- Go `json.Unmarshal(body, &out)`: the updated `out` and the error. -/
  Unmarshal : Bytes → T → T × Option ExtError

/-- The calls made to collaborators, in program order. -/
inductive Event where
  | marshal
  | wait (ctx : Context)
  | parse (endpoint : String)
  | newRequest (method url : String)
  | validateProxy (proxy : String)
  | send (client : Client) (req : HttpRequest)
  | unmarshal (data : Bytes)
  | close
deriving DecidableEq, Repr

/-- The constant `defaultTimeout = 2 * time.Second`, in nanoseconds. -/
def defaultTimeout : Int := 2 * 1000000000

/-- The keys of the package variable `methods`. -/
def methods : List String := ["GET", "POST", "PUT", "PATCH", "DELETE"]

/-- The struct `Config`. -/
structure Config (β τ : Type) where
  Body : Option β
  BodyMarshalled : Option Bytes
  Headers : Option Header
  QueryParams : Option Header
  Endpoint : String
  Method : String
  Timeout : Int
  Throttler : Option (Throttler τ)
  Proxy : String

/-- The type `Options = func(*Config)`, as a state transformer. -/
abbrev Options (β τ : Type) := Config β τ → Config β τ

/-- The option `WithTimeout`: sets the field `Timeout`. -/
def WithTimeout {β τ : Type} (t : Int) : Options β τ := fun c => { c with Timeout := t }

/-- The option `WithEndpoint`: sets the field `Endpoint`. -/
def WithEndpoint {β τ : Type} (e : String) : Options β τ := fun c => { c with Endpoint := e }

/-- The option `WithMethod`: sets the field `Method`. -/
def WithMethod {β τ : Type} (m : String) : Options β τ := fun c => { c with Method := m }

/-- The option `WithBody`: sets the field `Body`. -/
def WithBody {β τ : Type} (b : Option β) : Options β τ := fun c => { c with Body := b }

/-- The option `WithBodyMarshalled`: sets the field `BodyMarshalled`. -/
def WithBodyMarshalled {β τ : Type} (b : Option Bytes) : Options β τ :=
  fun c => { c with BodyMarshalled := b }

/-- The option `WithHeaders`: sets the field `Headers`. -/
def WithHeaders {β τ : Type} (h : Option Header) : Options β τ := fun c => { c with Headers := h }

/-- The option `WithQueryParams`: sets the field `QueryParams`. -/
def WithQueryParams {β τ : Type} (q : Option Header) : Options β τ :=
  fun c => { c with QueryParams := q }

/-- The option `WithThrottler`: sets the field `Throttler`. -/
def WithThrottler {β τ : Type} (t : Option (Throttler τ)) : Options β τ :=
  fun c => { c with Throttler := t }

/-- The option `WithProxy`: sets the field `Proxy`. -/
def WithProxy {β τ : Type} (proxy : String) : Options β τ := fun c => { c with Proxy := proxy }

/-- The function `newConfig`. -/
def newConfig {β τ : Type} (opts : List (Options β τ)) : Config β τ :=
  opts.foldl (fun cfg opt => opt cfg)
    { Body := none, BodyMarshalled := none, Headers := some [], QueryParams := none,
      Endpoint := "", Method := "GET", Timeout := defaultTimeout, Throttler := none, Proxy := "" }

/-- The function `validateProxy` of `proxy.go`. -/
def validateProxy {β T : Type} (env : Env β T) (proxyStr : String) : Except Error URL :=
  if proxyStr = "" then .error .proxyEmpty
  else
    match env.Parse proxyStr with
    | .error e => .error (.invalidProxyURL e)
    | .ok proxyURL => .ok proxyURL

/-! ## The executor `requestRaw`, stage by stage -/

/-- What `requestRaw` returns: the response or the error, the throttle state it leaves, and
the calls it made. -/
structure RawResult (τ : Type) where
  resp : Except Error Response
  throttle : τ
  trace : List Event

/-- Lines 140-142: the guard `cfg.Body != nil && cfg.BodyMarshalled != nil`. -/
def bodyConflict {β τ : Type} (cfg : Config β τ) : Bool :=
  cfg.Body.isSome && cfg.BodyMarshalled.isSome

/-- Lines 144-154: the body reader (`none`: nil), or the failure of `json.Marshal`. -/
def resolveBody {β τ T : Type} (env : Env β T) (cfg : Config β τ) :
    Except ExtError (Option Bytes) :=
  let fromBody : Except ExtError (Option Bytes) :=
    match cfg.Body with
    | some b =>
      match env.Marshal b with
      | .error e => .error e
      | .ok bs => .ok (some bs)
    | none => .ok none
  match fromBody with
  | .error e => .error e
  | .ok body =>
    match cfg.BodyMarshalled with
    | some bs => .ok (some bs)
    | none => .ok body

/-- The calls made by lines 144-154. -/
def bodyTrace {β τ : Type} (cfg : Config β τ) : List Event :=
  match cfg.Body with
  | some _ => [.marshal]
  | none => []

/-- Lines 156-160: the throttle gate. -/
def throttleWait {β τ : Type} (ctx : Context) (cfg : Config β τ) (th : τ) :
    Option ExtError × τ × List Event :=
  match cfg.Throttler with
  | some t => ((t.Wait ctx th).1, (t.Wait ctx th).2, [.wait ctx])
  | none => (none, th, [])

/-- Lines 162-169: the endpoint, parsed, with the query parameters written into it. -/
def endpointURL {β τ T : Type} (env : Env β T) (cfg : Config β τ) : Except ExtError URL :=
  match env.Parse cfg.Endpoint with
  | .error e => .error e
  | .ok u =>
    match cfg.QueryParams with
    | some q => if q.length > 0 then .ok { u with RawQuery := env.Encode q } else .ok u
    | none => .ok u

/-- Go `http.NewRequestWithContext`: on success a request with a fresh, empty header. -/
def NewRequestWithContext {β T : Type} (env : Env β T) (ctx : Context) (method url : String)
    (body : Option Bytes) : Except ExtError HttpRequest :=
  match env.newRequestErr ctx method url with
  | some e => .error e
  | none => .ok { ctx := ctx, Method := method, URL := url, Header := [], Body := body }

/-- Lines 180-182: the Content-Type default. -/
def defaultContentType (canon : String → String) (body : Option Bytes) (h : Header) : Header :=
  if body.isSome && Header.Get canon h "Content-Type" = "" then
    Header.Set canon h "Content-Type" "application/json"
  else h

/-- Lines 185-187: the inner loop `for _, vv := range v { req.Header.Add(k, vv) }`. -/
def addValues (canon : String → String) (h : Header) (k : String) (v : List String) : Header :=
  v.foldl (fun acc vv => Header.Add canon acc k vv) h

/-- Lines 184-188: the loop `for k, v := range cfg.Headers`. -/
def mergeHeaders (canon : String → String) (cfgHeaders : Option Header) (h : Header) : Header :=
  match cfgHeaders with
  | some m => m.foldl (fun acc kv => addValues canon acc kv.1 kv.2) h
  | none => h

/-- Lines 190-202: the client, or the failure of `validateProxy`. -/
def buildClient {β τ T : Type} (env : Env β T) (cfg : Config β τ) : Except Error Client :=
  if cfg.Proxy ≠ "" then
    match validateProxy env cfg.Proxy with
    | .error e => .error e
    | .ok proxyURL => .ok { Timeout := cfg.Timeout, Transport := some proxyURL }
  else .ok { Timeout := cfg.Timeout, Transport := none }

/-- The calls made by lines 190-202. -/
def proxyTrace {β τ : Type} (cfg : Config β τ) : List Event :=
  if cfg.Proxy ≠ "" then [.validateProxy cfg.Proxy] else []

/-- The function `requestRaw`. -/
def requestRaw {β τ T : Type} (env : Env β T) (ctx : Context) (cfg : Config β τ) (th : τ) :
    RawResult τ :=
  if bodyConflict cfg then ⟨.error .conflictingBody, th, []⟩
  else
    match resolveBody env cfg with
    | .error e => ⟨.error (.ext e), th, bodyTrace cfg⟩
    | .ok body =>
      match throttleWait ctx cfg th with
      | (some e, th1, tw) => ⟨.error (.ext e), th1, bodyTrace cfg ++ tw⟩
      | (none, th1, tw) =>
        let t1 := bodyTrace cfg ++ tw ++ [.parse cfg.Endpoint]
        match endpointURL env cfg with
        | .error e => ⟨.error (.ext e), th1, t1⟩
        | .ok u =>
          if cfg.Method ∉ methods then ⟨.error (.invalidMethod cfg.Method), th1, t1⟩
          else
            let t2 := t1 ++ [.newRequest cfg.Method (env.URLString u)]
            match NewRequestWithContext env ctx cfg.Method (env.URLString u) body with
            | .error e => ⟨.error (.ext e), th1, t2⟩
            | .ok req0 =>
              let req : HttpRequest :=
                { req0 with
                  Header :=
                    mergeHeaders env.canon cfg.Headers
                      (defaultContentType env.canon body req0.Header) }
              let t3 := t2 ++ proxyTrace cfg
              match buildClient env cfg with
              | .error e => ⟨.error e, th1, t3⟩
              | .ok client =>
                ⟨(env.Do client req).mapError Error.ext, th1, t3 ++ [.send client req]⟩

/-- The function `RequestRaw`. -/
def RequestRaw {β τ T : Type} (env : Env β T) (ctx : Context) (opts : List (Options β τ))
    (th : τ) : RawResult τ :=
  requestRaw env ctx (newConfig opts) th

/-- What `Request[T]` returns: the value, the error (`none`: nil), the throttle state it leaves,
and the calls it made. -/
structure TypedResult (τ T : Type) where
  out : T
  err : Option Error
  throttle : τ
  trace : List Event

/-- The function `Request[T]`. -/
def Request {β τ T : Type} (env : Env β T) (ctx : Context) (opts : List (Options β τ))
    (th : τ) : TypedResult τ T :=
  let r := requestRaw env ctx (newConfig opts) th
  match r.resp with
  | .error e => ⟨env.zero, some e, r.throttle, r.trace⟩
  | .ok resp =>
    if resp.StatusCode ≥ 400 then
      ⟨env.zero, some (.httpStatus resp.StatusCode (ReadAll resp.Body).1), r.throttle,
        r.trace ++ [.close]⟩
    else
      let reader : Reader :=
        if Header.Get env.canon resp.Header "Content-Encoding" = "br" then env.brotli resp.Body
        else resp.Body
      match ReadAll reader with
      | (_, some e) => ⟨env.zero, some (.ext e), r.throttle, r.trace ++ [.close]⟩
      | (body, none) =>
        ⟨(env.Unmarshal body env.zero).1, ((env.Unmarshal body env.zero).2).map Error.ext,
          r.throttle, r.trace ++ [.unmarshal body, .close]⟩

/-! ## A concrete instance of the collaborators

Used to run the definitions on concrete requests. The parser follows the outline of `net/url`
(scheme detection, then the "first path segment cannot contain colon" check), the key
canonicaliser that of `net/textproto`; the server, the codec and the decompressor are
stand-ins. -/

/-- Splits a list of characters at the first occurrence of `c`. -/
def splitAtChar (c : Char) : List Char → List Char × Option (List Char)
  | [] => ([], none)
  | x :: xs =>
    if x = c then ([], some xs)
    else ((x :: (splitAtChar c xs).1), (splitAtChar c xs).2)

/-- The scheme scan of `net/url`: `some (scheme, rest)` when the text starts with
`letter (letter | digit | + | - | .)* :`, `none` when it has no scheme. -/
def getScheme (s : List Char) : Option (List Char × List Char) :=
  match splitAtChar ':' s with
  | (_, none) => none
  | ([], some _) => none
  | (c :: cs, some rest) =>
    if c.isAlpha && cs.all (fun x => x.isAlphanum || x = '+' || x = '-' || x = '.') then
      some (c :: cs, rest)
    else none

/-- A small URL parser for the examples. -/
def exampleParse (s : String) : Except ExtError URL :=
  if s.toList.any (fun c => c.toNat < 32 || c.toNat = 127) then
    .error ⟨"net/url: invalid control character in URL"⟩
  else
    let (main, query) := splitAtChar '?' s.toList
    let q := String.mk (query.getD [])
    match getScheme main with
    | some (scheme, rest) =>
      match rest with
      | '/' :: '/' :: hostPath =>
        let (host, path) := splitAtChar '/' hostPath
        if host.any (fun c => c = ' ') then .error ⟨"invalid character in host name"⟩
        else
          .ok { Scheme := String.mk scheme, Host := String.mk host,
                Path := match path with
                  | some p => String.mk ('/' :: p)
                  | none => "",
                RawQuery := q }
      | _ => .ok { Scheme := String.mk scheme, Host := "", Path := String.mk rest, RawQuery := q }
    | none =>
      if main.head? ≠ some '/' ∧ ((splitAtChar '/' main).1).any (fun c => c = ':') then
        .error ⟨"first path segment in URL cannot contain colon"⟩
      else .ok { Scheme := "", Host := "", Path := String.mk main, RawQuery := q }

/-- The text of a URL of the examples. -/
def exampleURLString (u : URL) : String :=
  (if u.Scheme = "" then "" else u.Scheme ++ ":") ++
  (if u.Host = "" then "" else "//" ++ u.Host) ++ u.Path ++
  (if u.RawQuery = "" then "" else "?" ++ u.RawQuery)

/-- Upper-cases the first letter and every letter after a dash, lower-cases the others. -/
def canonChars : Bool → List Char → List Char
  | _, [] => []
  | upper, c :: cs => (if upper then c.toUpper else c.toLower) :: canonChars (c = '-') cs

/-- The header key canonicaliser of the examples: keys with a character that is neither a
letter, a digit nor a dash are left unchanged. -/
def exampleCanon (s : String) : String :=
  if s.toList.all (fun c => c.isAlphanum || c = '-') then String.mk (canonChars true s.toList)
  else s

/-- The decompressor of the examples: a body is "compressed" by the marker byte `0x0b` in
front of it. -/
def exampleBrotli (r : Reader) : Reader :=
  match r.data with
  | 0x0b :: rest => { data := rest, err := r.err }
  | _ => { data := [], err := some ⟨"brotli: corrupt input"⟩ }

/-- The server of the examples: a cancelled context fails the call; `DELETE` is answered by
400 `bad request`; a request that accepts `br` gets its body back compressed; every other
request gets its body back. -/
def exampleDo (_ : Client) (req : HttpRequest) : Except ExtError Response :=
  match req.ctx.err with
  | some e => .error e
  | none =>
    if req.Method = "DELETE" then
      .ok { StatusCode := 400, Header := [], Body := ⟨utf8 "bad request\n", none⟩ }
    else if Header.values req.Header "Accept-Encoding" = ["br"] then
      .ok { StatusCode := 200, Header := [("Content-Encoding", ["br"])],
            Body := ⟨0x0b :: req.Body.getD [], none⟩ }
    else .ok { StatusCode := 200, Header := [], Body := ⟨req.Body.getD [], none⟩ }

/-- The collaborators of the examples. Bodies and results are byte strings: the codec stores a
non-empty text as it is and rejects the empty one. -/
def exampleEnv : Env Bytes Bytes :=
  { Marshal := fun b => if b = [] then .error ⟨"json: unsupported value"⟩ else .ok b
    Parse := exampleParse
    Encode := fun q => String.intercalate "&" (q.map (fun kv => kv.1 ++ "=" ++ String.join kv.2))
    URLString := exampleURLString
    newRequestErr := fun _ _ _ => none
    Do := exampleDo
    canon := exampleCanon
    brotli := exampleBrotli
    zero := []
    Unmarshal := fun body out =>
      if body = [] then (out, some ⟨"unexpected end of JSON input"⟩) else (body, none) }

/-- The limiter of the examples, its state the number of permits left: `Wait` fails with the
error of a context that is done, and takes a permit otherwise. -/
def exampleLimiterWait (ctx : Context) (n : Nat) : Option ExtError × Nat :=
  match ctx.err with
  | some e => (some e, n)
  | none => (none, n - 1)

/-- The throttle of the examples: a `RateThrottler` over the limiter of the examples. -/
def exampleThrottler : Throttler Nat := RateThrottler exampleLimiterWait

/-- A live context. -/
def background : Context := ⟨none⟩

/-- A cancelled context. -/
def cancelled : Context := ⟨some contextCanceled⟩

/-! ## Example requests -/

/-- The options of the test `TestRequestRaw_BodyConflict`, behind a throttle. -/
def conflictOpts : List (Options Bytes Nat) :=
  [WithEndpoint "http://example.com", WithBody (some (utf8 "\x7b\"a\":\"b\"\x7d")),
   WithBodyMarshalled (some (utf8 "\x7b\x7d")), WithThrottler (some exampleThrottler)]

/-- A valid request to which `WithProxy("")` is applied. -/
def emptyProxyOpts : List (Options Bytes Nat) :=
  [WithEndpoint "http://example.com", WithProxy ""]

/-- A valid request to which the malformed proxy of `TestValidateProxy` is applied. -/
def badProxyOpts : List (Options Bytes Nat) :=
  [WithEndpoint "http://example.com", WithProxy "ht!tp://invalid-url"]

/-- The request of the test `TestRequest_HTTPError`: the example server answers 400. -/
def httpErrorOpts : List (Options Bytes Nat) :=
  [WithEndpoint "http://example.com", WithMethod "DELETE"]

/-- A request whose answer is Brotli-encoded. -/
def brOpts : List (Options Bytes Nat) :=
  [WithEndpoint "http://example.com", WithMethod "POST",
   WithBodyMarshalled (some (utf8 "\x7b\x7d")),
   WithHeaders (some [("Accept-Encoding", ["br"])])]

/-- A throttled request, as in `examples/throttler`. -/
def throttledOpts : List (Options Bytes Nat) :=
  [WithEndpoint "http://example.com", WithThrottler (some exampleThrottler)]

/-- A request with a body whose caller configured `Content-Type: text/plain`. -/
def contentTypeOpts : List (Options Bytes Nat) :=
  [WithEndpoint "http://example.com", WithMethod "POST",
   WithBodyMarshalled (some (utf8 "\x7b\x7d")),
   WithHeaders (some [("Content-Type", ["text/plain"])])]

/-- A request with a body and a multi-valued header, as in `TestWithHeaders`. -/
def headerOpts : List (Options Bytes Nat) :=
  [WithEndpoint "http://example.com", WithMethod "POST",
   WithBodyMarshalled (some (utf8 "\x7b\x7d")),
   WithHeaders (some [("X-Test", ["123", "456"])])]

/-- A throttled request with an invalid method and an invalid proxy. -/
def gatedInvalidOpts : List (Options Bytes Nat) :=
  [WithEndpoint "http://example.com", WithMethod "INVALID", WithProxy "ht!tp://invalid-url",
   WithThrottler (some exampleThrottler)]

/-- An invalid method and an invalid proxy together with both bodies. -/
def invalidMethodProxyConflictOpts : List (Options Bytes Nat) :=
  [WithEndpoint "http://example.com", WithMethod "INVALID", WithProxy "ht!tp://invalid-url",
   WithBody (some (utf8 "\x7b\"a\":\"b\"\x7d")), WithBodyMarshalled (some (utf8 "\x7b\x7d"))]

/-! ## The exported options as data -/

/-- The options the package exports, one constructor for each `With*` function. -/
inductive Opt (β τ : Type) where
  | timeout (t : Int)
  | endpoint (e : String)
  | method (m : String)
  | body (b : Option β)
  | bodyMarshalled (b : Option Bytes)
  | headers (h : Option Header)
  | queryParams (q : Option Header)
  | throttler (t : Option (Throttler τ))
  | proxy (p : String)

/-- The `With*` function that an option stands for. -/
def Opt.toOptions {β τ : Type} : Opt β τ → Options β τ
  | .timeout t => WithTimeout t
  | .endpoint e => WithEndpoint e
  | .method m => WithMethod m
  | .body b => WithBody b
  | .bodyMarshalled b => WithBodyMarshalled b
  | .headers h => WithHeaders h
  | .queryParams q => WithQueryParams q
  | .throttler t => WithThrottler t
  | .proxy p => WithProxy p

/-- The value carried by the last element of `os` that `sel` selects, `dflt` when `sel`
selects none. -/
def lastCarried {ο α : Type} (sel : ο → Option α) (os : List ο) (dflt : α) : α :=
  (os.reverse.findSome? sel).getD dflt

/-- The value an option carries for the field `Timeout`, if it targets it. -/
def Opt.timeout? {β τ : Type} : Opt β τ → Option Int
  | .timeout t => some t
  | _ => none

/-- The value an option carries for the field `Endpoint`, if it targets it. -/
def Opt.endpoint? {β τ : Type} : Opt β τ → Option String
  | .endpoint e => some e
  | _ => none

/-- The value an option carries for the field `Method`, if it targets it. -/
def Opt.method? {β τ : Type} : Opt β τ → Option String
  | .method m => some m
  | _ => none

/-- The value an option carries for the field `Body`, if it targets it. -/
def Opt.body? {β τ : Type} : Opt β τ → Option (Option β)
  | .body b => some b
  | _ => none

/-- The value an option carries for the field `BodyMarshalled`, if it targets it. -/
def Opt.bodyMarshalled? {β τ : Type} : Opt β τ → Option (Option Bytes)
  | .bodyMarshalled b => some b
  | _ => none

/-- The value an option carries for the field `Headers`, if it targets it. -/
def Opt.headers? {β τ : Type} : Opt β τ → Option (Option Header)
  | .headers h => some h
  | _ => none

/-- The value an option carries for the field `QueryParams`, if it targets it. -/
def Opt.queryParams? {β τ : Type} : Opt β τ → Option (Option Header)
  | .queryParams q => some q
  | _ => none

/-- The value an option carries for the field `Throttler`, if it targets it. -/
def Opt.throttler? {β τ : Type} : Opt β τ → Option (Option (Throttler τ))
  | .throttler t => some t
  | _ => none

/-- The value an option carries for the field `Proxy`, if it targets it. -/
def Opt.proxy? {β τ : Type} : Opt β τ → Option String
  | .proxy p => some p
  | _ => none

deriving instance DecidableEq for Except

/-! ## Lemmas on the stages of `requestRaw` -/

theorem send_not_mem_bodyTrace {β τ : Type} (cfg : Config β τ) (c : Client) (r : HttpRequest) :
    Event.send c r ∉ bodyTrace cfg := by
  unfold bodyTrace
  cases cfg.Body <;> simp

theorem send_not_mem_proxyTrace {β τ : Type} (cfg : Config β τ) (c : Client) (r : HttpRequest) :
    Event.send c r ∉ proxyTrace cfg := by
  unfold proxyTrace
  split <;> simp

theorem send_not_mem_throttleWait {β τ : Type} (ctx : Context) (cfg : Config β τ) (th : τ)
    (c : Client) (r : HttpRequest) : Event.send c r ∉ (throttleWait ctx cfg th).2.2 := by
  unfold throttleWait
  cases cfg.Throttler <;> simp

theorem requestRaw_conflict {β τ T : Type} (env : Env β T) (ctx : Context) (cfg : Config β τ)
    (th : τ) (h : bodyConflict cfg = true) :
    requestRaw env ctx cfg th = ⟨.error .conflictingBody, th, []⟩ := by
  simp [requestRaw, h]

theorem requestRaw_encode_err {β τ T : Type} (env : Env β T) (ctx : Context) (cfg : Config β τ)
    (th : τ) (e : ExtError) (h : bodyConflict cfg = false) (hb : resolveBody env cfg = .error e) :
    requestRaw env ctx cfg th = ⟨.error (.ext e), th, bodyTrace cfg⟩ := by
  simp [requestRaw, h, hb]

theorem requestRaw_wait_err {β τ T : Type} (env : Env β T) (ctx : Context) (cfg : Config β τ)
    (th : τ) (body : Option Bytes) (e : ExtError) (h : bodyConflict cfg = false)
    (hb : resolveBody env cfg = .ok body) (hw : (throttleWait ctx cfg th).1 = some e) :
    requestRaw env ctx cfg th =
      ⟨.error (.ext e), (throttleWait ctx cfg th).2.1,
        bodyTrace cfg ++ (throttleWait ctx cfg th).2.2⟩ := by
  rcases hq : throttleWait ctx cfg th with ⟨w, th1, tw⟩
  rw [hq] at hw
  simp only at hw
  subst hw
  simp [requestRaw, h, hb, hq]

theorem requestRaw_parse_err {β τ T : Type} (env : Env β T) (ctx : Context) (cfg : Config β τ)
    (th : τ) (body : Option Bytes) (e : ExtError) (h : bodyConflict cfg = false)
    (hb : resolveBody env cfg = .ok body) (hw : (throttleWait ctx cfg th).1 = none)
    (hu : endpointURL env cfg = .error e) :
    requestRaw env ctx cfg th =
      ⟨.error (.ext e), (throttleWait ctx cfg th).2.1,
        bodyTrace cfg ++ (throttleWait ctx cfg th).2.2 ++ [.parse cfg.Endpoint]⟩ := by
  rcases hq : throttleWait ctx cfg th with ⟨w, th1, tw⟩
  rw [hq] at hw
  simp only at hw
  subst hw
  simp [requestRaw, h, hb, hq, hu]

theorem requestRaw_method_err {β τ T : Type} (env : Env β T) (ctx : Context) (cfg : Config β τ)
    (th : τ) (body : Option Bytes) (u : URL) (h : bodyConflict cfg = false)
    (hb : resolveBody env cfg = .ok body) (hw : (throttleWait ctx cfg th).1 = none)
    (hu : endpointURL env cfg = .ok u) (hm : cfg.Method ∉ methods) :
    requestRaw env ctx cfg th =
      ⟨.error (.invalidMethod cfg.Method), (throttleWait ctx cfg th).2.1,
        bodyTrace cfg ++ (throttleWait ctx cfg th).2.2 ++ [.parse cfg.Endpoint]⟩ := by
  rcases hq : throttleWait ctx cfg th with ⟨w, th1, tw⟩
  rw [hq] at hw
  simp only at hw
  subst hw
  simp [requestRaw, h, hb, hq, hu, hm]

theorem requestRaw_construct_err {β τ T : Type} (env : Env β T) (ctx : Context)
    (cfg : Config β τ) (th : τ) (body : Option Bytes) (u : URL) (e : ExtError)
    (h : bodyConflict cfg = false) (hb : resolveBody env cfg = .ok body)
    (hw : (throttleWait ctx cfg th).1 = none) (hu : endpointURL env cfg = .ok u)
    (hm : cfg.Method ∈ methods)
    (hr : NewRequestWithContext env ctx cfg.Method (env.URLString u) body = .error e) :
    requestRaw env ctx cfg th =
      ⟨.error (.ext e), (throttleWait ctx cfg th).2.1,
        bodyTrace cfg ++ (throttleWait ctx cfg th).2.2 ++ [.parse cfg.Endpoint] ++
          [.newRequest cfg.Method (env.URLString u)]⟩ := by
  rcases hq : throttleWait ctx cfg th with ⟨w, th1, tw⟩
  rw [hq] at hw
  simp only at hw
  subst hw
  simp [requestRaw, h, hb, hq, hu, hm, hr]

theorem requestRaw_proxy_err {β τ T : Type} (env : Env β T) (ctx : Context)
    (cfg : Config β τ) (th : τ) (body : Option Bytes) (u : URL) (req0 : HttpRequest) (e : Error)
    (h : bodyConflict cfg = false) (hb : resolveBody env cfg = .ok body)
    (hw : (throttleWait ctx cfg th).1 = none) (hu : endpointURL env cfg = .ok u)
    (hm : cfg.Method ∈ methods)
    (hr : NewRequestWithContext env ctx cfg.Method (env.URLString u) body = .ok req0)
    (hc : buildClient env cfg = .error e) :
    requestRaw env ctx cfg th =
      ⟨.error e, (throttleWait ctx cfg th).2.1,
        bodyTrace cfg ++ (throttleWait ctx cfg th).2.2 ++ [.parse cfg.Endpoint] ++
          [.newRequest cfg.Method (env.URLString u)] ++ proxyTrace cfg⟩ := by
  rcases hq : throttleWait ctx cfg th with ⟨w, th1, tw⟩
  rw [hq] at hw
  simp only at hw
  subst hw
  simp [requestRaw, h, hb, hq, hu, hm, hr, hc]

/-- The request that `requestRaw` hands to the client: the constructed request with the
Content-Type default and the configured headers. -/
theorem requestRaw_send {β τ T : Type} (env : Env β T) (ctx : Context)
    (cfg : Config β τ) (th : τ) (body : Option Bytes) (u : URL) (req0 : HttpRequest)
    (client : Client)
    (h : bodyConflict cfg = false) (hb : resolveBody env cfg = .ok body)
    (hw : (throttleWait ctx cfg th).1 = none) (hu : endpointURL env cfg = .ok u)
    (hm : cfg.Method ∈ methods)
    (hr : NewRequestWithContext env ctx cfg.Method (env.URLString u) body = .ok req0)
    (hc : buildClient env cfg = .ok client) :
    requestRaw env ctx cfg th =
      ⟨(env.Do client
          { req0 with
            Header :=
              mergeHeaders env.canon cfg.Headers
                (defaultContentType env.canon body req0.Header) }).mapError Error.ext,
        (throttleWait ctx cfg th).2.1,
        bodyTrace cfg ++ (throttleWait ctx cfg th).2.2 ++ [.parse cfg.Endpoint] ++
          [.newRequest cfg.Method (env.URLString u)] ++ proxyTrace cfg ++
          [.send client
            { req0 with
              Header :=
                mergeHeaders env.canon cfg.Headers
                  (defaultContentType env.canon body req0.Header) }]⟩ := by
  rcases hq : throttleWait ctx cfg th with ⟨w, th1, tw⟩
  rw [hq] at hw
  simp only at hw
  subst hw
  simp [requestRaw, h, hb, hq, hu, hm, hr, hc]

theorem Request_of_error {β τ T : Type} (env : Env β T) (ctx : Context)
    (opts : List (Options β τ)) (th : τ) (e : Error)
    (h : (requestRaw env ctx (newConfig opts) th).resp = .error e) :
    Request env ctx opts th =
      ⟨env.zero, some e, (requestRaw env ctx (newConfig opts) th).throttle,
        (requestRaw env ctx (newConfig opts) th).trace⟩ := by
  simp [Request, h]

/-- A configuration whose method is not in `methods` never gets as far as sending: whatever
the other fields are, `requestRaw` returns an error and its trace has no send. -/
theorem invalid_method_never_sends {β τ T : Type} (env : Env β T) (ctx : Context)
    (cfg : Config β τ) (th : τ) (hm : cfg.Method ∉ methods) :
    (∃ e, (requestRaw env ctx cfg th).resp = .error e) ∧
      ∀ c r, Event.send c r ∉ (requestRaw env ctx cfg th).trace := by
  have hs := send_not_mem_bodyTrace cfg
  have ht := send_not_mem_throttleWait ctx cfg th
  cases h : bodyConflict cfg with
  | true => rw [requestRaw_conflict env ctx cfg th h]; simp
  | false =>
    cases hb : resolveBody env cfg with
    | error e => rw [requestRaw_encode_err env ctx cfg th e h hb]; simp [hs]
    | ok body =>
      cases hw : (throttleWait ctx cfg th).1 with
      | some e => rw [requestRaw_wait_err env ctx cfg th body e h hb hw]; simp [hs, ht]
      | none =>
        cases hu : endpointURL env cfg with
        | error e => rw [requestRaw_parse_err env ctx cfg th body e h hb hw hu]; simp [hs, ht]
        | ok u => rw [requestRaw_method_err env ctx cfg th body u h hb hw hu hm]; simp [hs, ht]

/-! ## C1: conflicting bodies -/

/-- C1: when both Body and BodyMarshalled are set, whatever the other fields, the context and
the collaborators are, RequestRaw and Request return the conflicting-body error and no response
(Request returns the zero value), the trace of calls is empty (neither Wait nor a send
happened) and the throttle state is untouched. -/
theorem C1_conflicting_body_rejected_first {β τ T : Type} (env : Env β T) (ctx : Context)
    (opts : List (Options β τ)) (th : τ)
    (hb : (newConfig opts).Body ≠ none) (hm : (newConfig opts).BodyMarshalled ≠ none) :
    (RequestRaw env ctx opts th).resp = .error .conflictingBody ∧
    (RequestRaw env ctx opts th).trace = [] ∧
    (RequestRaw env ctx opts th).throttle = th ∧
    (Request env ctx opts th).err = some .conflictingBody ∧
    (Request env ctx opts th).out = env.zero ∧
    (Request env ctx opts th).trace = [] ∧
    (Request env ctx opts th).throttle = th ∧
    Error.text .conflictingBody = utf8 "cannot set both Body and BodyMarshalled" := by
  have hc : bodyConflict (newConfig opts) = true := by
    unfold bodyConflict
    cases h1 : (newConfig opts).Body with
    | none => exact absurd h1 hb
    | some b =>
      cases h2 : (newConfig opts).BodyMarshalled with
      | none => exact absurd h2 hm
      | some m => rfl
  have hr := requestRaw_conflict env ctx (newConfig opts) th hc
  have hq := Request_of_error env ctx opts th .conflictingBody (by rw [hr])
  rw [hq]
  simp [RequestRaw, hr, Error.text]

/-- C1 on the options of `TestRequestRaw_BodyConflict`, behind a throttle with one permit. -/
theorem C1_conflicting_body_rejected_first_witness :
    (newConfig conflictOpts).Body ≠ none ∧ (newConfig conflictOpts).BodyMarshalled ≠ none ∧
    (RequestRaw exampleEnv background conflictOpts 1).resp = .error .conflictingBody ∧
    (RequestRaw exampleEnv background conflictOpts 1).trace = [] ∧
    (RequestRaw exampleEnv background conflictOpts 1).throttle = 1 :=
  have h := C1_conflicting_body_rejected_first exampleEnv background conflictOpts 1
    (by decide) (by decide)
  ⟨by decide, by decide, h.1, h.2.1, h.2.2.1⟩

/-! ## C2: invalid methods -/

/-- C3, as stated, fails for the empty string: `WithProxy("")` on an otherwise valid request
does not fail; the proxy step is skipped and the request is sent through the default
transport. -/
theorem C3_counterexample :
    (newConfig emptyProxyOpts).Proxy = "" ∧
    (RequestRaw exampleEnv background emptyProxyOpts 1).resp =
      .ok { StatusCode := 200, Header := [], Body := ⟨[], none⟩ } ∧
    (RequestRaw exampleEnv background emptyProxyOpts 1).trace =
      [.parse "http://example.com", .newRequest "GET" "http://example.com",
       .send { Timeout := 2000000000, Transport := none }
         { ctx := background, Method := "GET", URL := "http://example.com", Header := [],
           Body := none }] ∧
    (Request exampleEnv background emptyProxyOpts 1).err ≠ some .proxyEmpty := by
  decide

/-- C3, amended: on a configuration that passes every step before the proxy step, a non-empty
proxy string that the URL parser rejects makes RequestRaw and Request fail with the
invalid-proxy error that wraps the parser's error, and nothing is sent; an empty proxy string
means no proxy: `validateProxy` is not called and the request is sent through the default
transport. `validateProxy` itself returns an error for the empty string and for every string
the parser rejects, and the parsed URL otherwise. -/
theorem C3_proxy_validation {β τ T : Type} (env : Env β T) (ctx : Context)
    (opts : List (Options β τ)) (th : τ) (body : Option Bytes) (u : URL) (req0 : HttpRequest)
    (h : bodyConflict (newConfig opts) = false)
    (hb : resolveBody env (newConfig opts) = .ok body)
    (hw : (throttleWait ctx (newConfig opts) th).1 = none)
    (hu : endpointURL env (newConfig opts) = .ok u)
    (hm : (newConfig opts).Method ∈ methods)
    (hr : NewRequestWithContext env ctx (newConfig opts).Method (env.URLString u) body =
      .ok req0) :
    (∀ e, (newConfig opts).Proxy ≠ "" → env.Parse (newConfig opts).Proxy = .error e →
      (RequestRaw env ctx opts th).resp = .error (.invalidProxyURL e) ∧
      (∀ c r, Event.send c r ∉ (RequestRaw env ctx opts th).trace) ∧
      (Request env ctx opts th).err = some (.invalidProxyURL e) ∧
      (∀ c r, Event.send c r ∉ (Request env ctx opts th).trace)) ∧
    ((newConfig opts).Proxy = "" →
      (∀ p, Event.validateProxy p ∉ (RequestRaw env ctx opts th).trace) ∧
      ∃ req, Event.send { Timeout := (newConfig opts).Timeout, Transport := none } req ∈
        (RequestRaw env ctx opts th).trace) ∧
    validateProxy env "" = .error .proxyEmpty ∧
    (∀ s e, s ≠ "" → env.Parse s = .error e →
      validateProxy env s = .error (.invalidProxyURL e)) ∧
    (∀ s v, s ≠ "" → env.Parse s = .ok v → validateProxy env s = .ok v) := by
  have hs := send_not_mem_bodyTrace (newConfig opts)
  have ht := send_not_mem_throttleWait ctx (newConfig opts) th
  have hp := send_not_mem_proxyTrace (newConfig opts)
  refine ⟨?_, ?_, ?_, ?_, ?_⟩
  · intro e hne he
    have hc : buildClient env (newConfig opts) = .error (.invalidProxyURL e) := by
      simp [buildClient, validateProxy, hne, he]
    have hq := requestRaw_proxy_err env ctx (newConfig opts) th body u req0 _ h hb hw hu hm hr hc
    have hR := Request_of_error env ctx opts th (.invalidProxyURL e) (by rw [hq])
    rw [hR]
    simp [RequestRaw, hq, hs, ht, hp]
  · intro hempty
    have hc : buildClient env (newConfig opts) =
        .ok { Timeout := (newConfig opts).Timeout, Transport := none } := by
      simp [buildClient, hempty]
    have hq := requestRaw_send env ctx (newConfig opts) th body u req0 _ h hb hw hu hm hr hc
    constructor
    · intro p
      rw [RequestRaw, hq]
      have h1 : ∀ p, Event.validateProxy p ∉ bodyTrace (newConfig opts) := by
        intro p; unfold bodyTrace; cases (newConfig opts).Body <;> simp
      have h2 : ∀ p, Event.validateProxy p ∉ (throttleWait ctx (newConfig opts) th).2.2 := by
        intro p; unfold throttleWait; cases (newConfig opts).Throttler <;> simp
      simp [h1, h2, proxyTrace, hempty]
    · refine ⟨{ req0 with
          Header :=
            mergeHeaders env.canon (newConfig opts).Headers
              (defaultContentType env.canon body req0.Header) }, ?_⟩
      rw [RequestRaw, hq]
      simp
  · simp [validateProxy]
  · intro s e hs he
    simp [validateProxy, hs, he]
  · intro s v hs he
    simp [validateProxy, hs, he]

/-- C3 amended, on a valid request with the malformed proxy of `TestValidateProxy`. -/
theorem C3_proxy_validation_witness :
    bodyConflict (newConfig badProxyOpts) = false ∧
    (newConfig badProxyOpts).Method ∈ methods ∧
    (newConfig badProxyOpts).Proxy ≠ "" ∧
    (RequestRaw exampleEnv background badProxyOpts 1).resp =
      .error (.invalidProxyURL ⟨"first path segment in URL cannot contain colon"⟩) ∧
    (∀ c r, Event.send c r ∉ (RequestRaw exampleEnv background badProxyOpts 1).trace) :=
  have h := (C3_proxy_validation exampleEnv background badProxyOpts 1 none
    ⟨"http", "example.com", "", ""⟩
    { ctx := background, Method := "GET", URL := "http://example.com", Header := [],
      Body := none }
    (by decide) (by decide) (by decide) (by decide) (by decide) (by decide)).1
    ⟨"first path segment in URL cannot contain colon"⟩ (by decide) (by decide)
  ⟨by decide, by decide, by decide, h.1, h.2.1⟩

/-- The trace of `requestRaw` holds no decoder call. -/
theorem unmarshal_not_mem_requestRaw {β τ T : Type} (env : Env β T) (ctx : Context)
    (cfg : Config β τ) (th : τ) (d : Bytes) :
    Event.unmarshal d ∉ (requestRaw env ctx cfg th).trace := by
  have h1 : Event.unmarshal d ∉ bodyTrace cfg := by
    unfold bodyTrace; cases cfg.Body <;> simp
  have h2 : Event.unmarshal d ∉ (throttleWait ctx cfg th).2.2 := by
    unfold throttleWait; cases cfg.Throttler <;> simp
  have h3 : Event.unmarshal d ∉ proxyTrace cfg := by
    unfold proxyTrace; split <;> simp
  unfold requestRaw
  repeat' split
  all_goals simp_all

/-- Once the body is resolved, the trace of `requestRaw` starts with the body calls followed
by the throttle gate, and the throttle is left in the state the gate produced. -/
theorem requestRaw_after_body {β τ T : Type} (env : Env β T) (ctx : Context)
    (cfg : Config β τ) (th : τ) (body : Option Bytes) (h : bodyConflict cfg = false)
    (hb : resolveBody env cfg = .ok body) :
    (∃ rest, (requestRaw env ctx cfg th).trace =
      bodyTrace cfg ++ (throttleWait ctx cfg th).2.2 ++ rest) ∧
    (requestRaw env ctx cfg th).throttle = (throttleWait ctx cfg th).2.1 := by
  unfold requestRaw
  simp only [h, hb]
  repeat' split
  all_goals simp_all

/-! ## C4: status classification in typed mode -/

/-- C4: when the send step returns a response, Request fails with the HTTP-status error exactly
when the status code is at least 400; the error then carries that code and the body as
`io.ReadAll` returned it (its text is `http <code>: <body>`), the value returned is the zero
value, and the decoder is not called. -/
theorem C4_status_error_iff_ge_400 {β τ T : Type} (env : Env β T) (ctx : Context)
    (opts : List (Options β τ)) (th : τ) (resp : Response)
    (hok : (RequestRaw env ctx opts th).resp = .ok resp) :
    ((∃ code b, (Request env ctx opts th).err = some (.httpStatus code b)) ↔
      resp.StatusCode ≥ 400) ∧
    (resp.StatusCode ≥ 400 →
      (Request env ctx opts th).err =
        some (.httpStatus resp.StatusCode (ReadAll resp.Body).1) ∧
      (Request env ctx opts th).out = env.zero ∧
      (∀ d, Event.unmarshal d ∉ (Request env ctx opts th).trace) ∧
      Error.text (.httpStatus resp.StatusCode (ReadAll resp.Body).1) =
        utf8 "http " ++ utf8 (toString resp.StatusCode) ++ utf8 ": " ++ resp.Body.data) := by
  have hok2 : (requestRaw env ctx (newConfig opts) th).resp = .ok resp := hok
  have hno := unmarshal_not_mem_requestRaw env ctx (newConfig opts) th
  by_cases hs : resp.StatusCode ≥ 400
  · have hq : Request env ctx opts th =
        ⟨env.zero, some (.httpStatus resp.StatusCode (ReadAll resp.Body).1),
          (requestRaw env ctx (newConfig opts) th).throttle,
          (requestRaw env ctx (newConfig opts) th).trace ++ [.close]⟩ := by
      simp [Request, hok2, hs]
    rw [hq]
    simp [hs, hno, Error.text, ReadAll]
  · refine ⟨⟨?_, fun h => absurd h hs⟩, fun h => absurd h hs⟩
    rintro ⟨code, b, hq⟩
    exfalso
    unfold Request at hq
    simp only [hok2, hs, if_false] at hq
    split at hq
    · simp at hq
    · next body _ =>
      cases hu : (env.Unmarshal body env.zero).2 <;> simp [hu] at hq

/-- C4 on the request of `TestRequest_HTTPError`: the example server answers 400 `bad
request`. -/
theorem C4_status_error_iff_ge_400_witness :
    (RequestRaw exampleEnv background httpErrorOpts 1).resp =
      .ok { StatusCode := 400, Header := [], Body := ⟨utf8 "bad request\n", none⟩ } ∧
    (Request exampleEnv background httpErrorOpts 1).err =
      some (.httpStatus 400 (utf8 "bad request\n")) ∧
    (Request exampleEnv background httpErrorOpts 1).out = [] :=
  have h := (C4_status_error_iff_ge_400 exampleEnv background httpErrorOpts 1
    { StatusCode := 400, Header := [], Body := ⟨utf8 "bad request\n", none⟩ } (by decide)).2
    (by decide)
  ⟨by decide, h.1, h.2.1⟩

/-! ## C7: Brotli decompression before decoding -/

/-- C7: for a response with status below 400, the reader that Request drains is the Brotli
reader over the body when `Content-Encoding` is exactly `br`, and the body itself for every
other value; when the read succeeds, the bytes it produced are the one and only input of the
decoder, and when it fails the decoder is not called and the read error is returned. The
trace of the executor itself holds no decoder call. -/
theorem C7_decoder_input {β τ T : Type} (env : Env β T) (ctx : Context)
    (opts : List (Options β τ)) (th : τ) (resp : Response)
    (hok : (RequestRaw env ctx opts th).resp = .ok resp) (hs : resp.StatusCode < 400) :
    (Header.Get env.canon resp.Header "Content-Encoding" = "br" →
      (∀ data, ReadAll (env.brotli resp.Body) = (data, none) →
        (Request env ctx opts th).trace =
          (RequestRaw env ctx opts th).trace ++ [.unmarshal data, .close] ∧
        (Request env ctx opts th).out = (env.Unmarshal data env.zero).1 ∧
        (Request env ctx opts th).err = ((env.Unmarshal data env.zero).2).map Error.ext) ∧
      (∀ data e, ReadAll (env.brotli resp.Body) = (data, some e) →
        (Request env ctx opts th).trace = (RequestRaw env ctx opts th).trace ++ [.close] ∧
        (Request env ctx opts th).err = some (.ext e))) ∧
    (Header.Get env.canon resp.Header "Content-Encoding" ≠ "br" →
      (∀ data, ReadAll resp.Body = (data, none) →
        (Request env ctx opts th).trace =
          (RequestRaw env ctx opts th).trace ++ [.unmarshal data, .close] ∧
        (Request env ctx opts th).out = (env.Unmarshal data env.zero).1 ∧
        (Request env ctx opts th).err = ((env.Unmarshal data env.zero).2).map Error.ext) ∧
      (∀ data e, ReadAll resp.Body = (data, some e) →
        (Request env ctx opts th).trace = (RequestRaw env ctx opts th).trace ++ [.close] ∧
        (Request env ctx opts th).err = some (.ext e))) ∧
    (∀ d, Event.unmarshal d ∉ (RequestRaw env ctx opts th).trace) := by
  have hok2 : (requestRaw env ctx (newConfig opts) th).resp = .ok resp := hok
  have hs2 : ¬ resp.StatusCode ≥ 400 := not_le.mpr hs
  refine ⟨?_, ?_, fun d => unmarshal_not_mem_requestRaw env ctx (newConfig opts) th d⟩
  · intro hbr
    constructor
    · intro data hd
      simp [Request, RequestRaw, hok2, hs2, hbr, hd]
    · intro data e hd
      simp [Request, RequestRaw, hok2, hs2, hbr, hd]
  · intro hbr
    constructor
    · intro data hd
      simp [Request, RequestRaw, hok2, hs2, hbr, hd]
    · intro data e hd
      simp [Request, RequestRaw, hok2, hs2, hbr, hd]

/-- C7 on a request whose answer is Brotli-encoded: the decoder receives the decompressed
body, not the body on the wire. -/
theorem C7_decoder_input_witness :
    (RequestRaw exampleEnv background brOpts 1).resp =
      .ok { StatusCode := 200, Header := [("Content-Encoding", ["br"])],
            Body := ⟨0x0b :: utf8 "\x7b\x7d", none⟩ } ∧
    (Request exampleEnv background brOpts 1).trace =
      (RequestRaw exampleEnv background brOpts 1).trace ++
        [.unmarshal (utf8 "\x7b\x7d"), .close] ∧
    (Request exampleEnv background brOpts 1).out = utf8 "\x7b\x7d" :=
  have h := ((C7_decoder_input exampleEnv background brOpts 1
    { StatusCode := 200, Header := [("Content-Encoding", ["br"])],
      Body := ⟨0x0b :: utf8 "\x7b\x7d", none⟩ } (by decide) (by decide)).1 (by decide)).1
    (utf8 "\x7b\x7d") (by decide)
  ⟨by decide, h.1, h.2.1⟩

/-! ## C8: the throttle gate -/

/-- C8: with a throttle and a resolvable body, the first call after the body is resolved is
`Wait` with the caller's context, before any send, and the throttle is left in the state that
`Wait` produced; when `Wait` returns an error, RequestRaw and Request return that very error
value, the trace ends at the `Wait` call and holds no send. -/
theorem C8_throttle_wait_gates_send {β τ T : Type} (env : Env β T) (ctx : Context)
    (opts : List (Options β τ)) (th : τ) (t : Throttler τ) (body : Option Bytes)
    (ht : (newConfig opts).Throttler = some t)
    (hc : bodyConflict (newConfig opts) = false)
    (hb : resolveBody env (newConfig opts) = .ok body) :
    (∃ rest, (RequestRaw env ctx opts th).trace =
      bodyTrace (newConfig opts) ++ Event.wait ctx :: rest) ∧
    (∀ c r, Event.send c r ∉ bodyTrace (newConfig opts)) ∧
    (RequestRaw env ctx opts th).throttle = (t.Wait ctx th).2 ∧
    (∀ e, (t.Wait ctx th).1 = some e →
      (RequestRaw env ctx opts th).resp = .error (.ext e) ∧
      (Request env ctx opts th).err = some (.ext e) ∧
      (Request env ctx opts th).out = env.zero ∧
      (RequestRaw env ctx opts th).trace = bodyTrace (newConfig opts) ++ [.wait ctx] ∧
      (Request env ctx opts th).trace = bodyTrace (newConfig opts) ++ [.wait ctx] ∧
      (∀ c r, Event.send c r ∉ (RequestRaw env ctx opts th).trace) ∧
      (∀ c r, Event.send c r ∉ (Request env ctx opts th).trace)) := by
  have hw : throttleWait ctx (newConfig opts) th =
      ((t.Wait ctx th).1, (t.Wait ctx th).2, [.wait ctx]) := by
    simp [throttleWait, ht]
  have hs := send_not_mem_bodyTrace (newConfig opts)
  obtain ⟨⟨rest, hrest⟩, hth⟩ := requestRaw_after_body env ctx (newConfig opts) th body hc hb
  refine ⟨⟨rest, ?_⟩, hs, ?_, ?_⟩
  · rw [RequestRaw, hrest, hw]
    simp
  · rw [RequestRaw, hth, hw]
  · intro e he
    have hr := requestRaw_wait_err env ctx (newConfig opts) th body e hc hb (by rw [hw]; exact he)
    have hq := Request_of_error env ctx opts th (.ext e) (by rw [hr])
    rw [hq]
    simp [RequestRaw, hr, hw, hs]

/-- C8 on a throttled request issued with a cancelled context: the result is
`context.Canceled` itself and nothing is sent. -/
theorem C8_throttle_wait_gates_send_witness :
    (newConfig throttledOpts).Throttler = some exampleThrottler ∧
    bodyConflict (newConfig throttledOpts) = false ∧
    (RequestRaw exampleEnv cancelled throttledOpts 0).resp = .error (.ext contextCanceled) ∧
    (RequestRaw exampleEnv cancelled throttledOpts 0).trace = [.wait cancelled] ∧
    (∀ c r, Event.send c r ∉ (RequestRaw exampleEnv cancelled throttledOpts 0).trace) :=
  have h := (C8_throttle_wait_gates_send exampleEnv cancelled throttledOpts 0 exampleThrottler
    none rfl (by decide) (by decide)).2.2.2 contextCanceled (by decide)
  ⟨rfl, by decide, h.1, h.2.2.2.1, h.2.2.2.2.2.1⟩

/-! ## C5: defaults and last-write-wins -/

theorem lastCarried_cons {ο α : Type} (sel : ο → Option α) (o : ο) (os : List ο) (dflt : α) :
    lastCarried sel (o :: os) dflt = lastCarried sel os ((sel o).getD dflt) := by
  unfold lastCarried
  rw [List.reverse_cons, List.findSome?_append]
  cases h : os.reverse.findSome? sel with
  | some a => simp
  | none => cases h2 : sel o <;> simp [List.findSome?, h2]

/-- Folding options over a configuration leaves in a field the value of the last option that
targets it. -/
theorem foldl_field {β τ α : Type} (f : Config β τ → α) (sel : Opt β τ → Option α)
    (hsel : ∀ o c, f (Opt.toOptions o c) = (sel o).getD (f c)) (os : List (Opt β τ))
    (c : Config β τ) :
    f ((os.map Opt.toOptions).foldl (fun cfg opt => opt cfg) c) = lastCarried sel os (f c) := by
  induction os generalizing c with
  | nil => simp [lastCarried]
  | cons o os ih =>
    rw [List.map_cons, List.foldl_cons, ih, hsel, lastCarried_cons]

/-- C5: for every list of exported options, each field of `newConfig` holds the value carried
by the last option of the list that targets the field, and the default when none does: 2
seconds, GET, an empty non-nil header map, and nil or empty for the other fields. Every option
sets the field it targets and leaves every other field as it was. On no options the result is
the defaults. -/
theorem C5_newConfig_last_write_wins {β τ : Type} (os : List (Opt β τ)) :
    ((newConfig (os.map Opt.toOptions)).Timeout = lastCarried Opt.timeout? os (2 * 1000000000) ∧
     (newConfig (os.map Opt.toOptions)).Method = lastCarried Opt.method? os "GET" ∧
     (newConfig (os.map Opt.toOptions)).Headers = lastCarried Opt.headers? os (some []) ∧
     (newConfig (os.map Opt.toOptions)).Body = lastCarried Opt.body? os none ∧
     (newConfig (os.map Opt.toOptions)).BodyMarshalled =
       lastCarried Opt.bodyMarshalled? os none ∧
     (newConfig (os.map Opt.toOptions)).QueryParams = lastCarried Opt.queryParams? os none ∧
     (newConfig (os.map Opt.toOptions)).Endpoint = lastCarried Opt.endpoint? os "" ∧
     (newConfig (os.map Opt.toOptions)).Throttler = lastCarried Opt.throttler? os none ∧
     (newConfig (os.map Opt.toOptions)).Proxy = lastCarried Opt.proxy? os "") ∧
    (∀ (o : Opt β τ) (c : Config β τ),
     (Opt.toOptions o c).Timeout = (Opt.timeout? o).getD c.Timeout ∧
     (Opt.toOptions o c).Method = (Opt.method? o).getD c.Method ∧
     (Opt.toOptions o c).Headers = (Opt.headers? o).getD c.Headers ∧
     (Opt.toOptions o c).Body = (Opt.body? o).getD c.Body ∧
     (Opt.toOptions o c).BodyMarshalled = (Opt.bodyMarshalled? o).getD c.BodyMarshalled ∧
     (Opt.toOptions o c).QueryParams = (Opt.queryParams? o).getD c.QueryParams ∧
     (Opt.toOptions o c).Endpoint = (Opt.endpoint? o).getD c.Endpoint ∧
     (Opt.toOptions o c).Throttler = (Opt.throttler? o).getD c.Throttler ∧
     (Opt.toOptions o c).Proxy = (Opt.proxy? o).getD c.Proxy) ∧
    ((newConfig ([] : List (Options β τ))).Timeout = 2 * 1000000000 ∧
     (newConfig ([] : List (Options β τ))).Method = "GET" ∧
     (newConfig ([] : List (Options β τ))).Headers = some [] ∧
     (newConfig ([] : List (Options β τ))).Headers ≠ none) := by
  have hstep : ∀ (o : Opt β τ) (c : Config β τ),
      (Opt.toOptions o c).Timeout = (Opt.timeout? o).getD c.Timeout ∧
      (Opt.toOptions o c).Method = (Opt.method? o).getD c.Method ∧
      (Opt.toOptions o c).Headers = (Opt.headers? o).getD c.Headers ∧
      (Opt.toOptions o c).Body = (Opt.body? o).getD c.Body ∧
      (Opt.toOptions o c).BodyMarshalled = (Opt.bodyMarshalled? o).getD c.BodyMarshalled ∧
      (Opt.toOptions o c).QueryParams = (Opt.queryParams? o).getD c.QueryParams ∧
      (Opt.toOptions o c).Endpoint = (Opt.endpoint? o).getD c.Endpoint ∧
      (Opt.toOptions o c).Throttler = (Opt.throttler? o).getD c.Throttler ∧
      (Opt.toOptions o c).Proxy = (Opt.proxy? o).getD c.Proxy := by
    intro o c
    cases o <;> refine ⟨rfl, rfl, rfl, rfl, rfl, rfl, rfl, rfl, rfl⟩
  refine ⟨⟨?_, ?_, ?_, ?_, ?_, ?_, ?_, ?_, ?_⟩, hstep, ⟨rfl, rfl, rfl, by simp [newConfig]⟩⟩
  · exact foldl_field (fun c => c.Timeout) Opt.timeout? (fun o c => (hstep o c).1) os _
  · exact foldl_field (fun c => c.Method) Opt.method? (fun o c => (hstep o c).2.1) os _
  · exact foldl_field (fun c => c.Headers) Opt.headers? (fun o c => (hstep o c).2.2.1) os _
  · exact foldl_field (fun c => c.Body) Opt.body? (fun o c => (hstep o c).2.2.2.1) os _
  · exact foldl_field (fun c => c.BodyMarshalled) Opt.bodyMarshalled?
      (fun o c => (hstep o c).2.2.2.2.1) os _
  · exact foldl_field (fun c => c.QueryParams) Opt.queryParams?
      (fun o c => (hstep o c).2.2.2.2.2.1) os _
  · exact foldl_field (fun c => c.Endpoint) Opt.endpoint?
      (fun o c => (hstep o c).2.2.2.2.2.2.1) os _
  · exact foldl_field (fun c => c.Throttler) Opt.throttler?
      (fun o c => (hstep o c).2.2.2.2.2.2.2.1) os _
  · exact foldl_field (fun c => c.Proxy) Opt.proxy?
      (fun o c => (hstep o c).2.2.2.2.2.2.2.2) os _

/-! ## C9: the header merge -/

theorem values_store (h : Header) (key key2 : String) (vs : List String) :
    Header.values (Header.store h key vs) key2 =
      if key = key2 then vs else Header.values h key2 := by
  induction h with
  | nil => simp [Header.store, Header.values]
  | cons kv rest ih =>
    obtain ⟨k, old⟩ := kv
    by_cases hk : k = key
    · subst hk
      by_cases hk2 : k = key2 <;> simp [Header.store, Header.values, hk2]
    · by_cases hk2 : k = key2
      · subst hk2
        simp [Header.store, Header.values, hk, Ne.symm hk]
      · simp [Header.store, Header.values, hk, hk2, ih]

theorem values_Add (canon : String → String) (h : Header) (k v key : String) :
    Header.values (Header.Add canon h k v) key =
      if canon k = key then Header.values h key ++ [v] else Header.values h key := by
  unfold Header.Add
  rw [values_store]
  by_cases hk : canon k = key
  · subst hk; simp
  · simp [hk]

theorem values_addValues (canon : String → String) (h : Header) (k key : String)
    (vs : List String) :
    Header.values (addValues canon h k vs) key =
      if canon k = key then Header.values h key ++ vs else Header.values h key := by
  unfold addValues
  induction vs generalizing h with
  | nil => simp
  | cons v vs ih =>
    rw [List.foldl_cons, ih, values_Add]
    by_cases hk : canon k = key <;> simp [hk]

/-- The merge only appends: what a key held before the merge is an initial segment of what it
holds after. -/
theorem values_mergeHeaders_extends (canon : String → String) (m : Header) (h : Header)
    (key : String) :
    Header.values h key <+: Header.values (mergeHeaders canon (some m) h) key := by
  induction m generalizing h with
  | nil => simp [mergeHeaders]
  | cons kv rest ih =>
    have h1 : Header.values h key <+: Header.values (addValues canon h kv.1 kv.2) key := by
      rw [values_addValues]
      by_cases hk : canon kv.1 = key <;> simp [hk]
    have h2 := ih (addValues canon h kv.1 kv.2)
    simp only [mergeHeaders, List.foldl_cons] at h2 ⊢
    exact h1.trans h2

/-- The values configured under a key appear after the merge, contiguous and in order, under
the canonical form of the key. -/
theorem values_mergeHeaders_contains (canon : String → String) (m : Header) (h : Header)
    (k : String) (vs : List String) (hmem : (k, vs) ∈ m) :
    vs <:+: Header.values (mergeHeaders canon (some m) h) (canon k) := by
  induction m generalizing h with
  | nil => simp at hmem
  | cons kv rest ih =>
    rcases List.mem_cons.mp hmem with heq | htail
    · subst heq
      have h1 : Header.values (addValues canon h k vs) (canon k) =
          Header.values h (canon k) ++ vs := by
        rw [values_addValues]; simp
      obtain ⟨t, ht⟩ := values_mergeHeaders_extends canon rest (addValues canon h k vs) (canon k)
      simp only [mergeHeaders, List.foldl_cons] at ht ⊢
      exact ⟨Header.values h (canon k), t, by rw [← ht, h1]⟩
    · have h2 := ih (addValues canon h kv.1 kv.2) htail
      simp only [mergeHeaders, List.foldl_cons] at h2 ⊢
      exact h2

/-- The request handed to the client carries the merged headers over the Content-Type
default over the empty header of a fresh request. -/
theorem sent_header {β τ T : Type} (env : Env β T) (ctx : Context) (cfg : Config β τ) (th : τ)
    (client : Client) (req : HttpRequest)
    (hsend : Event.send client req ∈ (requestRaw env ctx cfg th).trace) :
    ∃ body, resolveBody env cfg = .ok body ∧ req.Body = body ∧
      req.Header = mergeHeaders env.canon cfg.Headers (defaultContentType env.canon body []) := by
  have h1 := send_not_mem_bodyTrace cfg client req
  have h2 := send_not_mem_throttleWait ctx cfg th client req
  have h3 := send_not_mem_proxyTrace cfg client req
  unfold requestRaw at hsend
  repeat' split at hsend
  all_goals simp_all
  next body _ _ _ _ _ _ req0 _ _ hreq _ =>
    unfold NewRequestWithContext at hreq
    split at hreq
    · simp at hreq
    · simp only [Except.ok.injEq] at hreq
      subst hreq
      simp [hsend]

/-- C9: the header merge is additive. For every configured header map and every header the
request already has, the values configured under a name appear on the merged header under that
name (its canonical form, the one `Header.Values` reads), contiguous and in their configured
order, and what each key held before the merge is an initial segment of what it holds after:
nothing is removed or replaced. The request that requestRaw sends carries the result of this
merge over the headers the executor placed on it (the Content-Type default). -/
theorem C9_header_merge_additive {β τ T : Type} (env : Env β T) (m : Header) (h : Header) :
    (∀ k vs, (k, vs) ∈ m →
      vs <:+: Header.Values env.canon (mergeHeaders env.canon (some m) h) k) ∧
    (∀ k vs v, (k, vs) ∈ m → v ∈ vs →
      v ∈ Header.Values env.canon (mergeHeaders env.canon (some m) h) k) ∧
    (∀ key, Header.values h key <+: Header.values (mergeHeaders env.canon (some m) h) key) ∧
    (∀ (ctx : Context) (cfg : Config β τ) (th : τ) (client : Client) (req : HttpRequest),
      cfg.Headers = some m → Event.send client req ∈ (requestRaw env ctx cfg th).trace →
      ∃ body, req.Header =
          mergeHeaders env.canon (some m) (defaultContentType env.canon body []) ∧
        (∀ k vs, (k, vs) ∈ m → vs <:+: Header.Values env.canon req.Header k) ∧
        (∀ key, Header.values (defaultContentType env.canon body []) key <+:
          Header.values req.Header key)) := by
  refine ⟨?_, ?_, ?_, ?_⟩
  · intro k vs hmem
    exact values_mergeHeaders_contains env.canon m h k vs hmem
  · intro k vs v hmem hv
    exact (values_mergeHeaders_contains env.canon m h k vs hmem).subset hv
  · intro key
    exact values_mergeHeaders_extends env.canon m h key
  · intro ctx cfg th client req hcfg hsend
    obtain ⟨body, _, _, hreq⟩ := sent_header env ctx cfg th client req hsend
    rw [hcfg] at hreq
    refine ⟨body, hreq, ?_, ?_⟩
    · intro k vs hmem
      rw [hreq]
      exact values_mergeHeaders_contains env.canon m _ k vs hmem
    · intro key
      rw [hreq]
      exact values_mergeHeaders_extends env.canon m _ key

/-- C9 on a request with a body and the header `X-Test: 123, 456`: both values are on the
request that is sent, in order, and the Content-Type default is still there. -/
theorem C9_header_merge_additive_witness :
    (∃ client req, Event.send client req ∈
        (requestRaw exampleEnv background (newConfig headerOpts) 1).trace ∧
      Header.Values exampleCanon req.Header "X-Test" = ["123", "456"] ∧
      Header.Values exampleCanon req.Header "Content-Type" = ["application/json"]) ∧
    ["123", "456"] <:+: Header.Values exampleEnv.canon
      (mergeHeaders exampleEnv.canon (some [("X-Test", ["123", "456"])])
        [("Content-Type", ["application/json"])]) "X-Test" :=
  ⟨⟨{ Timeout := 2000000000, Transport := none },
     { ctx := background, Method := "POST", URL := "http://example.com",
       Header := [("Content-Type", ["application/json"]), ("X-Test", ["123", "456"])],
       Body := some (utf8 "\x7b\x7d") }, by decide, by decide, by decide⟩,
   (@C9_header_merge_additive Bytes Nat Bytes exampleEnv [("X-Test", ["123", "456"])]
     [("Content-Type", ["application/json"])]).1 "X-Test" ["123", "456"] (by decide)⟩

/-! ## C6: the Content-Type default -/

/-- Whenever a request with a body is sent, `application/json` is the first Content-Type value
on it, whatever headers the caller configured: the default is written before the merge, on a
header that is still empty. -/
theorem sent_content_type_with_body {β τ T : Type} (env : Env β T) (ctx : Context)
    (cfg : Config β τ) (th : τ) (client : Client) (req : HttpRequest) (b : Bytes)
    (hsend : Event.send client req ∈ (requestRaw env ctx cfg th).trace)
    (hbody : req.Body = some b) :
    Header.Get env.canon req.Header "Content-Type" = "application/json" := by
  obtain ⟨body, _, hb, hreq⟩ := sent_header env ctx cfg th client req hsend
  rw [hbody] at hb
  subst hb
  have hd : Header.values (defaultContentType env.canon (some b) []) (env.canon "Content-Type") =
      ["application/json"] := by
    simp [defaultContentType, Header.Get, Header.Set, Header.values, Header.store]
  cases hm : cfg.Headers with
  | none =>
    rw [hm] at hreq
    simp only [mergeHeaders] at hreq
    rw [Header.Get, hreq, hd]
  | some m =>
    rw [hm] at hreq
    obtain ⟨t, ht⟩ := values_mergeHeaders_extends env.canon m
      (defaultContentType env.canon (some b) []) (env.canon "Content-Type")
    rw [hd] at ht
    rw [Header.Get, hreq, ← ht]
    rfl

/-- A key that no configured entry with values canonicalises to is left as it was by the
merge. -/
theorem values_mergeHeaders_untouched (canon : String → String) (m : Header) (h : Header)
    (key : String) (hno : ∀ k vs, (k, vs) ∈ m → canon k = key → vs = []) :
    Header.values (mergeHeaders canon (some m) h) key = Header.values h key := by
  induction m generalizing h with
  | nil => simp [mergeHeaders]
  | cons kv rest ih =>
    have h1 : Header.values (addValues canon h kv.1 kv.2) key = Header.values h key := by
      rw [values_addValues]
      by_cases hk : canon kv.1 = key
      · simp [hk, hno kv.1 kv.2 (List.mem_cons_self _ _) hk]
      · simp [hk]
    have h2 := ih (addValues canon h kv.1 kv.2)
      (fun k vs hmem hk => hno k vs (List.mem_cons_of_mem _ hmem) hk)
    simp only [mergeHeaders, List.foldl_cons] at h2 ⊢
    rw [h2, h1]

/-- The two parts of C6 that the code meets: when the caller configured no Content-Type value,
a sent request with a body carries exactly `application/json`, and a sent request without a
body carries no Content-Type. -/
theorem sent_content_type_not_configured {β τ T : Type} (env : Env β T) (ctx : Context)
    (cfg : Config β τ) (th : τ) (client : Client) (req : HttpRequest)
    (hsend : Event.send client req ∈ (requestRaw env ctx cfg th).trace)
    (hno : ∀ m k vs, cfg.Headers = some m → (k, vs) ∈ m →
      env.canon k = env.canon "Content-Type" → vs = []) :
    (∀ b, req.Body = some b →
      Header.Values env.canon req.Header "Content-Type" = ["application/json"]) ∧
    (req.Body = none → Header.Values env.canon req.Header "Content-Type" = []) := by
  obtain ⟨body, _, hb, hreq⟩ := sent_header env ctx cfg th client req hsend
  have hkeep : Header.values req.Header (env.canon "Content-Type") =
      Header.values (defaultContentType env.canon body []) (env.canon "Content-Type") := by
    rw [hreq]
    cases hm : cfg.Headers with
    | none => simp [mergeHeaders]
    | some m => exact values_mergeHeaders_untouched env.canon m _ _ (hno m · · hm)
  constructor
  · intro b hbody
    rw [hbody] at hb
    subst hb
    rw [Header.Values, hkeep]
    simp [defaultContentType, Header.Get, Header.Set, Header.values, Header.store]
  · intro hbody
    rw [hbody] at hb
    subst hb
    rw [Header.Values, hkeep]
    simp [defaultContentType, Header.values]

/-- C6, where the code departs from it: a request with a body whose caller configured
`Content-Type: text/plain` is sent with the two values `application/json`, `text/plain`, the
default ahead of the caller's value, and `Header.Get` reads `application/json`. -/
theorem C6_default_applied_ahead_of_configured :
    (newConfig contentTypeOpts).Headers = some [("Content-Type", ["text/plain"])] ∧
    (newConfig contentTypeOpts).BodyMarshalled = some (utf8 "\x7b\x7d") ∧
    (requestRaw exampleEnv background (newConfig contentTypeOpts) 1).trace =
      [.parse "http://example.com", .newRequest "POST" "http://example.com",
       .send { Timeout := 2000000000, Transport := none }
         { ctx := background, Method := "POST", URL := "http://example.com",
           Header := [("Content-Type", ["application/json", "text/plain"])],
           Body := some (utf8 "\x7b\x7d") }] ∧
    Header.Values exampleCanon [("Content-Type", ["application/json", "text/plain"])]
      "Content-Type" = ["application/json", "text/plain"] ∧
    Header.Get exampleCanon [("Content-Type", ["application/json", "text/plain"])]
      "Content-Type" = "application/json" := by
  decide

/-! ## C10: the order of the steps -/

theorem validateProxy_not_mem_bodyTrace {β τ : Type} (cfg : Config β τ) (p : String) :
    Event.validateProxy p ∉ bodyTrace cfg := by
  unfold bodyTrace
  cases cfg.Body <;> simp

theorem validateProxy_not_mem_throttleWait {β τ : Type} (ctx : Context) (cfg : Config β τ)
    (th : τ) (p : String) : Event.validateProxy p ∉ (throttleWait ctx cfg th).2.2 := by
  unfold throttleWait
  cases cfg.Throttler <;> simp

/-- With a method outside `methods`, the proxy is never validated. -/
theorem invalid_method_skips_proxy {β τ T : Type} (env : Env β T) (ctx : Context)
    (cfg : Config β τ) (th : τ) (hm : cfg.Method ∉ methods) (p : String) :
    Event.validateProxy p ∉ (requestRaw env ctx cfg th).trace := by
  have hs := validateProxy_not_mem_bodyTrace cfg p
  have ht := validateProxy_not_mem_throttleWait ctx cfg th p
  cases h : bodyConflict cfg with
  | true => rw [requestRaw_conflict env ctx cfg th h]; simp
  | false =>
    cases hb : resolveBody env cfg with
    | error e => rw [requestRaw_encode_err env ctx cfg th e h hb]; simp [hs]
    | ok body =>
      cases hw : (throttleWait ctx cfg th).1 with
      | some e => rw [requestRaw_wait_err env ctx cfg th body e h hb hw]; simp [hs, ht]
      | none =>
        cases hu : endpointURL env cfg with
        | error e => rw [requestRaw_parse_err env ctx cfg th body e h hb hw hu]; simp [hs, ht]
        | ok u => rw [requestRaw_method_err env ctx cfg th body u h hb hw hu hm]; simp [hs, ht]

/-- Every trace of `requestRaw` is an initial segment of one fixed sequence of calls: the body
calls, the throttle gate, the endpoint parse, the request construction, the proxy validation,
the send. -/
theorem requestRaw_trace_order {β τ T : Type} (env : Env β T) (ctx : Context)
    (cfg : Config β τ) (th : τ) :
    ∃ url client req, (requestRaw env ctx cfg th).trace <+:
      bodyTrace cfg ++ (throttleWait ctx cfg th).2.2 ++ [.parse cfg.Endpoint] ++
        [.newRequest cfg.Method url] ++ proxyTrace cfg ++ [.send client req] := by
  have dflt : Client × HttpRequest := (⟨0, none⟩, ⟨ctx, "", "", [], none⟩)
  cases h : bodyConflict cfg with
  | true =>
    rw [requestRaw_conflict env ctx cfg th h]
    exact ⟨"", dflt.1, dflt.2, List.nil_prefix⟩
  | false =>
    cases hb : resolveBody env cfg with
    | error e =>
      rw [requestRaw_encode_err env ctx cfg th e h hb]
      exact ⟨"", dflt.1, dflt.2, ⟨_, by simp only [List.append_assoc]; rfl⟩⟩
    | ok body =>
      cases hw : (throttleWait ctx cfg th).1 with
      | some e =>
        rw [requestRaw_wait_err env ctx cfg th body e h hb hw]
        exact ⟨"", dflt.1, dflt.2, ⟨_, by simp only [List.append_assoc]; rfl⟩⟩
      | none =>
        cases hu : endpointURL env cfg with
        | error e =>
          rw [requestRaw_parse_err env ctx cfg th body e h hb hw hu]
          exact ⟨"", dflt.1, dflt.2, ⟨_, by simp only [List.append_assoc]; rfl⟩⟩
        | ok u =>
          by_cases hm : cfg.Method ∈ methods
          · cases hr : NewRequestWithContext env ctx cfg.Method (env.URLString u) body with
            | error e =>
              rw [requestRaw_construct_err env ctx cfg th body u e h hb hw hu hm hr]
              exact ⟨_, dflt.1, dflt.2, ⟨_, by simp only [List.append_assoc]; rfl⟩⟩
            | ok req0 =>
              cases hc : buildClient env cfg with
              | error e =>
                rw [requestRaw_proxy_err env ctx cfg th body u req0 e h hb hw hu hm hr hc]
                exact ⟨_, dflt.1, dflt.2, ⟨_, by simp only [List.append_assoc]; rfl⟩⟩
              | ok client =>
                rw [requestRaw_send env ctx cfg th body u req0 client h hb hw hu hm hr hc]
                exact ⟨_, _, _, List.prefix_refl _⟩
          · rw [requestRaw_method_err env ctx cfg th body u h hb hw hu hm]
            exact ⟨"", dflt.1, dflt.2, ⟨_, by simp only [List.append_assoc]; rfl⟩⟩

/-- C10, as stated, fails in its closing sentence: with an invalid method, an invalid proxy and
both bodies set, requestRaw returns the conflicting-body error, not the invalid-method
error. -/
theorem C10_counterexample :
    (newConfig invalidMethodProxyConflictOpts).Method ∉ methods ∧
    validateProxy exampleEnv (newConfig invalidMethodProxyConflictOpts).Proxy =
      .error (.invalidProxyURL ⟨"first path segment in URL cannot contain colon"⟩) ∧
    (requestRaw exampleEnv background (newConfig invalidMethodProxyConflictOpts) 1).resp ≠
      .error (.invalidMethod (newConfig invalidMethodProxyConflictOpts).Method) ∧
    (requestRaw exampleEnv background (newConfig invalidMethodProxyConflictOpts) 1).resp =
      .error .conflictingBody := by
  decide

/-- C10, amended: requestRaw returns the failure of the first failing step, in the order
conflicting body, body encoding (`json.Marshal`), throttle wait (`Wait`), endpoint parse
(`url.Parse`), method validation, request construction (`http.NewRequestWithContext`), proxy
validation, send, and its trace of calls stops at that step; every trace is an initial segment
of that one sequence of calls. `Wait ctx` is called after the body calls and before the
endpoint is parsed, and every later outcome leaves the throttle in the state `Wait` produced;
a conflict or an encoding failure calls no `Wait` and leaves the throttle untouched. A
configuration with an invalid method and an invalid proxy fails with the invalid-method error
when the steps before method validation succeed; in every case an invalid method makes the
call fail without validating the proxy and without sending. -/
theorem C10_first_failing_step_wins {β τ T : Type} (env : Env β T) (ctx : Context)
    (cfg : Config β τ) (th : τ) :
    (cfg.Body ≠ none → cfg.BodyMarshalled ≠ none →
      requestRaw env ctx cfg th = ⟨.error .conflictingBody, th, []⟩) ∧
    (∀ b e, cfg.Body = some b → cfg.BodyMarshalled = none → env.Marshal b = .error e →
      requestRaw env ctx cfg th = ⟨.error (.ext e), th, [.marshal]⟩) ∧
    (∀ body tb,
      ((cfg.Body = none ∧ body = cfg.BodyMarshalled ∧ tb = []) ∨
       (∃ b bs, cfg.Body = some b ∧ cfg.BodyMarshalled = none ∧ env.Marshal b = .ok bs ∧
         body = some bs ∧ tb = [Event.marshal])) →
      (∀ t e, cfg.Throttler = some t → (t.Wait ctx th).1 = some e →
        requestRaw env ctx cfg th =
          ⟨.error (.ext e), (t.Wait ctx th).2, tb ++ [.wait ctx]⟩) ∧
      (∀ th1 tw,
        ((cfg.Throttler = none ∧ th1 = th ∧ tw = []) ∨
         (∃ t, cfg.Throttler = some t ∧ (t.Wait ctx th).1 = none ∧
           th1 = (t.Wait ctx th).2 ∧ tw = [Event.wait ctx])) →
        (∀ e, env.Parse cfg.Endpoint = .error e →
          requestRaw env ctx cfg th =
            ⟨.error (.ext e), th1, tb ++ tw ++ [.parse cfg.Endpoint]⟩) ∧
        (∀ u0 u, env.Parse cfg.Endpoint = .ok u0 →
          u = (match cfg.QueryParams with
               | some q => if q.length > 0 then { u0 with RawQuery := env.Encode q } else u0
               | none => u0) →
          (cfg.Method ∉ methods →
            requestRaw env ctx cfg th =
              ⟨.error (.invalidMethod cfg.Method), th1, tb ++ tw ++ [.parse cfg.Endpoint]⟩) ∧
          (cfg.Method ∈ methods →
            (∀ e, env.newRequestErr ctx cfg.Method (env.URLString u) = some e →
              requestRaw env ctx cfg th =
                ⟨.error (.ext e), th1,
                  tb ++ tw ++
                    [.parse cfg.Endpoint, .newRequest cfg.Method (env.URLString u)]⟩) ∧
            (∀ req, env.newRequestErr ctx cfg.Method (env.URLString u) = none →
              req = { ctx := ctx, Method := cfg.Method, URL := env.URLString u,
                      Header := mergeHeaders env.canon cfg.Headers
                        (defaultContentType env.canon body []),
                      Body := body } →
              (∀ e, cfg.Proxy ≠ "" → env.Parse cfg.Proxy = .error e →
                requestRaw env ctx cfg th =
                  ⟨.error (.invalidProxyURL e), th1,
                    tb ++ tw ++
                      [.parse cfg.Endpoint, .newRequest cfg.Method (env.URLString u),
                       .validateProxy cfg.Proxy]⟩) ∧
              (cfg.Proxy = "" →
                requestRaw env ctx cfg th =
                  ⟨(env.Do { Timeout := cfg.Timeout, Transport := none } req).mapError
                      Error.ext, th1,
                    tb ++ tw ++
                      [.parse cfg.Endpoint, .newRequest cfg.Method (env.URLString u),
                       .send { Timeout := cfg.Timeout, Transport := none } req]⟩) ∧
              (∀ pu, cfg.Proxy ≠ "" → env.Parse cfg.Proxy = .ok pu →
                requestRaw env ctx cfg th =
                  ⟨(env.Do { Timeout := cfg.Timeout, Transport := some pu } req).mapError
                      Error.ext, th1,
                    tb ++ tw ++
                      [.parse cfg.Endpoint, .newRequest cfg.Method (env.URLString u),
                       .validateProxy cfg.Proxy,
                       .send { Timeout := cfg.Timeout, Transport := some pu } req]⟩)))))) ∧
    (∃ url client req, (requestRaw env ctx cfg th).trace <+:
      (match cfg.Body with
       | some _ => [Event.marshal]
       | none => []) ++
      (match cfg.Throttler with
       | some _ => [Event.wait ctx]
       | none => []) ++
      [.parse cfg.Endpoint, .newRequest cfg.Method url] ++
      (if cfg.Proxy ≠ "" then [Event.validateProxy cfg.Proxy] else []) ++
      [.send client req]) ∧
    (cfg.Method ∉ methods →
      (∃ e, (requestRaw env ctx cfg th).resp = .error e) ∧
      (∀ p, Event.validateProxy p ∉ (requestRaw env ctx cfg th).trace) ∧
      (∀ c r, Event.send c r ∉ (requestRaw env ctx cfg th).trace)) := by
  refine ⟨?_, ?_, ?_, ?_, ?_⟩
  · intro hb hm
    have hc : bodyConflict cfg = true := by
      unfold bodyConflict
      cases h1 : cfg.Body with
      | none => exact absurd h1 hb
      | some b =>
        cases h2 : cfg.BodyMarshalled with
        | none => exact absurd h2 hm
        | some m => rfl
    exact requestRaw_conflict env ctx cfg th hc
  · intro b e hb hm he
    have hc : bodyConflict cfg = false := by simp [bodyConflict, hb, hm]
    have hr : resolveBody env cfg = .error e := by simp [resolveBody, hb, he]
    rw [requestRaw_encode_err env ctx cfg th e hc hr]
    simp [bodyTrace, hb]
  · intro body tb hbody
    have hfacts : bodyConflict cfg = false ∧ resolveBody env cfg = .ok body ∧
        bodyTrace cfg = tb := by
      rcases hbody with ⟨hb, hbm, htb⟩ | ⟨b, bs, hb, hm, hok, hbody, htb⟩
      · subst hbm htb
        refine ⟨by simp [bodyConflict, hb], ?_, by simp [bodyTrace, hb]⟩
        cases hm : cfg.BodyMarshalled <;> simp [resolveBody, hb, hm]
      · subst hbody htb
        exact ⟨by simp [bodyConflict, hb, hm], by simp [resolveBody, hb, hm, hok],
          by simp [bodyTrace, hb]⟩
    obtain ⟨hc, hrb, htb⟩ := hfacts
    constructor
    · intro t e ht he
      have hw : throttleWait ctx cfg th =
          ((t.Wait ctx th).1, (t.Wait ctx th).2, [.wait ctx]) := by
        simp [throttleWait, ht]
      rw [requestRaw_wait_err env ctx cfg th body e hc hrb (by rw [hw]; exact he), hw, htb]
    · intro th1 tw hgate
      have hw : throttleWait ctx cfg th = (none, th1, tw) := by
        rcases hgate with ⟨ht, h1, h2⟩ | ⟨t, ht, hnone, h1, h2⟩
        · subst h1 h2
          simp [throttleWait, ht]
        · subst h1 h2
          simp [throttleWait, ht, hnone]
      have hw1 : (throttleWait ctx cfg th).1 = none := by rw [hw]
      constructor
      · intro e he
        have hu : endpointURL env cfg = .error e := by simp [endpointURL, he]
        rw [requestRaw_parse_err env ctx cfg th body e hc hrb hw1 hu, hw, htb]
      · intro u0 u hp hdef
        have hu : endpointURL env cfg = .ok u := by
          subst hdef
          cases hq : cfg.QueryParams with
          | none => simp [endpointURL, hp, hq]
          | some q => by_cases hl : q.length > 0 <;> simp [endpointURL, hp, hq, hl]
        constructor
        · intro hm
          rw [requestRaw_method_err env ctx cfg th body u hc hrb hw1 hu hm, hw, htb]
        · intro hm
          constructor
          · intro e he
            have hr : NewRequestWithContext env ctx cfg.Method (env.URLString u) body =
                .error e := by
              simp [NewRequestWithContext, he]
            rw [requestRaw_construct_err env ctx cfg th body u e hc hrb hw1 hu hm hr, hw, htb]
            simp
          · intro req hnone hreq
            have hr : NewRequestWithContext env ctx cfg.Method (env.URLString u) body =
                .ok { ctx := ctx, Method := cfg.Method, URL := env.URLString u, Header := [],
                      Body := body } := by
              simp [NewRequestWithContext, hnone]
            subst hreq
            refine ⟨?_, ?_, ?_⟩
            · intro e hne he
              have hcl : buildClient env cfg = .error (.invalidProxyURL e) := by
                simp [buildClient, validateProxy, hne, he]
              rw [requestRaw_proxy_err env ctx cfg th body u _ _ hc hrb hw1 hu hm hr hcl, hw,
                htb]
              simp [proxyTrace, hne]
            · intro hempty
              have hcl : buildClient env cfg =
                  .ok { Timeout := cfg.Timeout, Transport := none } := by
                simp [buildClient, hempty]
              rw [requestRaw_send env ctx cfg th body u _ _ hc hrb hw1 hu hm hr hcl, hw, htb]
              simp [proxyTrace, hempty]
            · intro pu hne hok
              have hcl : buildClient env cfg =
                  .ok { Timeout := cfg.Timeout, Transport := some pu } := by
                simp [buildClient, validateProxy, hne, hok]
              rw [requestRaw_send env ctx cfg th body u _ _ hc hrb hw1 hu hm hr hcl, hw, htb]
              simp [proxyTrace, hne]
  · obtain ⟨url, client, req, h⟩ := requestRaw_trace_order env ctx cfg th
    refine ⟨url, client, req, ?_⟩
    have h1 : bodyTrace cfg =
        (match cfg.Body with
         | some _ => [Event.marshal]
         | none => []) := rfl
    have h2 : (throttleWait ctx cfg th).2.2 =
        (match cfg.Throttler with
         | some _ => [Event.wait ctx]
         | none => []) := by
      unfold throttleWait
      cases cfg.Throttler <;> rfl
    have h3 : proxyTrace cfg =
        (if cfg.Proxy ≠ "" then [Event.validateProxy cfg.Proxy] else []) := rfl
    rw [h1, h2, h3] at h
    simpa using h
  · intro hm
    exact ⟨(invalid_method_never_sends env ctx cfg th hm).1,
      invalid_method_skips_proxy env ctx cfg th hm,
      (invalid_method_never_sends env ctx cfg th hm).2⟩

/-- C10 amended, on a throttled request with an invalid method and an invalid proxy: the
permit is taken, the endpoint is parsed, and the invalid-method error is returned; the proxy
is not looked at. -/
theorem C10_first_failing_step_wins_witness :
    (newConfig gatedInvalidOpts).Method ∉ methods ∧
    validateProxy exampleEnv (newConfig gatedInvalidOpts).Proxy =
      .error (.invalidProxyURL ⟨"first path segment in URL cannot contain colon"⟩) ∧
    exampleEnv.Parse (newConfig gatedInvalidOpts).Endpoint =
      .ok ⟨"http", "example.com", "", ""⟩ ∧
    requestRaw exampleEnv background (newConfig gatedInvalidOpts) 1 =
      ⟨.error (.invalidMethod "INVALID"), 0,
        [.wait background, .parse "http://example.com"]⟩ :=
  have h := (((((C10_first_failing_step_wins exampleEnv background (newConfig gatedInvalidOpts)
    1).2.2.1 none [] (Or.inl ⟨rfl, rfl, rfl⟩)).2 0 [.wait background]
    (Or.inr ⟨exampleThrottler, rfl, by decide, by decide, rfl⟩)).2
    ⟨"http", "example.com", "", ""⟩ ⟨"http", "example.com", "", ""⟩ (by decide)
    (by decide)).1) (by decide)
  ⟨by decide, by decide, by decide, h⟩

end GoRequest
